import Mathlib

/-
Verification of the Scene Visual Resolution & Timeline Composition subsystem
of the true-crime video pipeline (Go sources: 04_visuals/asset_manager.go,
04_visuals/proof_scraper.go, 04_visuals/visual_assembler.go, 07_render/renderer.go).

The Go code is shallowly embedded: pure logic (scoring, sorting, timing math,
filter-expression arithmetic) is translated directly; external effects
(HTTP downloads, ffmpeg subprocesses, the random number generator) are
parameters - an oracle records each external call's outcome, and the
embedded functions compute exactly what the Go control flow computes from
those outcomes.  Float64 arithmetic is modelled over the rationals.
-/

/-! ## Data model (types.go) -/

/-- One scene of the script (types.go, struct ScriptScene); only the fields the
visual subsystem reads or writes are kept. -/
structure ScriptScene where
  index : Nat
  timestampStart : ℚ
  narration : String
  sceneType : String
  mood : String
  imagePrompt : String
  assetTags : List String
  proofImageURL : String
  proofDurationSec : ℚ
  audioDurationSec : ℚ
  visualFile : String

/-- A researched story (types.go, struct Story); fields the visual subsystem reads. -/
structure Story where
  title : String
  source : String
  publishedAt : String
  imageURLs : List String

/-- The visuals/render configuration block (config.Visuals). -/
structure VisCfg where
  proofAnimationDurationSec : ℚ
  proofHoldSecDefault : ℚ
  backgroundDimDuringProof : ℚ
  kenBurnsZoomFactor : ℚ
  fps : Nat

/-! ## ClipLibrary (asset_manager.go) -/

/-- The AssetManager state (asset_manager.go): the tag index in its iteration
order, the set of filenames already used in this run, and this run's slice of
the usage log. -/
structure AssetManager where
  tags : List (String × List String)
  usedInRun : List String
  usageLog : List String

/-- strings.ToLower: the string with every character lowercased. -/
def strToLower (s : String) : String :=
  String.mk (s.toList.map Char.toLower)

/-- matchScore (asset_manager.go:101): 10 points per required tag found in the
clip's lowercased tag set, plus a 15-point bonus when the set contains the
scene's mood.  The Go map-based set is a lowercased membership list. -/
def matchScore (required clipTags : List String) (mood : String) : ℤ :=
  let clipTagSet := clipTags.map strToLower
  let base := required.foldl
    (fun acc req => if clipTagSet.contains (strToLower req) then acc + 10 else acc) 0
  if clipTagSet.contains (strToLower mood) then base + 15 else base

/-- One step of sortScored's insertion sort: the new element moves left past
every strictly smaller score and stops at the first score that is ≥ its own
(asset_manager.go:122, the inner loop swaps while s[j].score > s[j-1].score). -/
def insertDesc (x : String × ℤ) : List (String × ℤ) → List (String × ℤ)
  | [] => [x]
  | y :: ys => if y.2 < x.2 then x :: y :: ys else y :: insertDesc x ys

/-- Helper for sortScored: insert each element in turn into the sorted prefix. -/
def sortScoredGo : List (String × ℤ) → List (String × ℤ) → List (String × ℤ)
  | [], acc => acc
  | x :: xs, acc => sortScoredGo xs (insertDesc x acc)

/-- sortScored (asset_manager.go:122): stable insertion sort, descending by score. -/
def sortScored (l : List (String × ℤ)) : List (String × ℤ) :=
  sortScoredGo l []

/-- The candidate list built by Pick (asset_manager.go:50-76): score every clip
not yet used in this run, keep scores ≥ 0 (always true); if that left nothing,
fall back to every unused clip with score 0. -/
def pickCandidates (am : AssetManager) (scene : ScriptScene) : List (String × ℤ) :=
  let unused := am.tags.filter (fun e => !(am.usedInRun.contains e.1))
  let cands :=
    (unused.map (fun e => (e.1, matchScore scene.assetTags e.2 scene.mood))).filter
      (fun c => 0 ≤ c.2)
  if cands.isEmpty then unused.map (fun e => (e.1, (0 : ℤ))) else cands

/-- AssetManager.Pick (asset_manager.go:45): error when the tag index is empty
or every clip is used; otherwise sort the candidates descending by score, pick
index r of the top min 3 entries (r models the value rand.Intn(topN) returned),
mark the pick used and append it to the usage log.  Returns the picked filename
and the updated manager. -/
def AssetManager.Pick (am : AssetManager) (scene : ScriptScene) (r : Nat) :
    Option (String × AssetManager) :=
  if am.tags.isEmpty then none
  else
    let cands := pickCandidates am scene
    if cands.isEmpty then none
    else
      let sorted := sortScored cands
      let topN := if sorted.length < 3 then sorted.length else 3
      let pick := sorted.getD (r % topN) ("", 0)
      some (pick.1,
        { am with usedInRun := pick.1 :: am.usedInRun
                  usageLog := am.usageLog ++ [pick.1] })

/-- A sequence of Pick calls within one run: each request is a scene together
with its random-oracle value; a failed pick contributes nothing and leaves the
manager unchanged (the caller downgrades the scene), a successful pick threads
the updated manager into the rest of the run. -/
def runPicks (am : AssetManager) : List (ScriptScene × Nat) → List String
  | [] => []
  | (s, r) :: rest =>
    match am.Pick s r with
    | none => runPicks am rest
    | some (f, am1) => f :: runPicks am1 rest

/-! ## EvidenceImageSource (proof_scraper.go) -/

/-- %03d formatting of a scene index (fmt.Sprintf of the Go path builders). -/
def pad3 (n : Nat) : String :=
  if n < 10 then "00" ++ toString n
  else if n < 100 then "0" ++ toString n
  else toString n

/-- filepath.Join for the fixed two-component joins the visual code performs. -/
def joinPath (dir name : String) : String := dir ++ "/" ++ name

/-- Output path of FetchProofImage steps 1 and 3 (proof_scraper.go:36). -/
def proofPath (outputDir : String) (i : Nat) : String :=
  joinPath outputDir ("proof_" ++ pad3 i ++ ".jpg")

/-- Output path of the Wikipedia step (proof_scraper.go:118). -/
def wikiPath (outputDir : String) (i : Nat) : String :=
  joinPath outputDir ("proof_" ++ pad3 i ++ "_wiki.jpg")

/-- Output path of the SerpAPI step (proof_scraper.go:160). -/
def googlePath (outputDir : String) (i : Nat) : String :=
  joinPath outputDir ("proof_" ++ pad3 i ++ "_google.jpg")

/-- An HTTP response as far as downloadFile inspects it: status code and the
byte length of the (10MB-capped) body it reads. -/
structure HttpResponse where
  status : Nat
  bodyLen : Nat

/-- The decoded Wikipedia summary as far as searchWikipedia inspects it. -/
structure WikiSummary where
  thumbnailSource : String
  originalImageSource : String

/-- Oracle for the ProofScraper's external world: every URL's HTTP response
(none = transport error), the decoded Wikipedia summary per query (none =
request/decode failure or non-200), the SerpAPI result URLs per query (none =
request/decode failure), and the configured API key. -/
structure ProofEnv where
  http : String → Option HttpResponse
  wiki : String → Option WikiSummary
  serp : String → Option (List String)
  serpAPIKey : String

/-- downloadFile (proof_scraper.go:170): succeeds exactly when the request got
through, the status is 200, and the body is at least 1000 bytes ("file too
small" rejection of error pages). -/
def downloadFile (env : ProofEnv) (fileURL : String) : Bool :=
  match env.http fileURL with
  | none => false
  | some resp => decide (resp.status = 200 ∧ 1000 ≤ resp.bodyLen)

/-- The filler-word list of extractSearchQuery (proof_scraper.go:203). -/
def fillerWords : List String :=
  ["the", "a", "an", "was", "were", "had", "have", "has",
   "her", "his", "their", "they", "she", "he", "it", "this",
   "that", "and", "or", "but", "for", "from", "with", "into",
   "nobody", "somebody", "everyone", "anyone", "three", "two"]

/-- strings.Trim(w, punctuation cutset) of extractSearchQuery: strip leading and
trailing characters of the cutset (period, comma, bang, question mark, double
quote, apostrophe). -/
def trimPunct (w : String) : String :=
  let cut : List Char := ['.', ',', '!', '?', Char.ofNat 34, Char.ofNat 39]
  String.mk
    (((w.toList.dropWhile (fun c => cut.contains c)).reverse.dropWhile
        (fun c => cut.contains c)).reverse)

/-- strings.Fields, accumulator form: split around runs of whitespace,
yielding no empty fields. -/
def fieldsAux : List Char → List Char → List String
  | [], cur => if cur.isEmpty then [] else [String.mk cur.reverse]
  | c :: cs, cur =>
    if c.isWhitespace then
      if cur.isEmpty then fieldsAux cs []
      else String.mk cur.reverse :: fieldsAux cs []
    else fieldsAux cs (c :: cur)

/-- strings.Fields of extractSearchQuery. -/
def fields (s : String) : List String := fieldsAux s.toList []

/-- extractSearchQuery (proof_scraper.go:201): split the narration on
whitespace, lowercase each trimmed word, keep words that are not filler and
longer than 3 characters, take the first 4 and join them with spaces. -/
def extractSearchQuery (text : String) : String :=
  let words := fields text
  let cleaned := words.map (fun w => strToLower (trimPunct w))
  let kept := cleaned.filter
    (fun c => !(fillerWords.contains c) && decide (3 < c.length))
  String.intercalate " " (kept.take 4)

/-- Step 1 of FetchProofImage (proof_scraper.go:39): the scene's own declared
proof URL, attempted only when present. -/
def proofStep1 (env : ProofEnv) (scene : ScriptScene) (outputDir : String) :
    Option String :=
  if scene.proofImageURL ≠ "" then
    if downloadFile env scene.proofImageURL then some (proofPath outputDir scene.index)
    else none
  else none

/-- searchWikipedia (proof_scraper.go:71): look up the page summary keyed by the
extracted narration query, prefer the original image over the thumbnail, and
download it through downloadFile. -/
def searchWikipedia (env : ProofEnv) (narration outputDir : String) (sceneIndex : Nat) :
    Option String :=
  let query := extractSearchQuery narration
  if query = "" then none
  else
    match env.wiki query with
    | none => none
    | some result =>
      let imgURL :=
        if result.originalImageSource ≠ "" then result.originalImageSource
        else result.thumbnailSource
      if imgURL = "" then none
      else if downloadFile env imgURL then some (wikiPath outputDir sceneIndex)
      else none

/-- Step 3 of FetchProofImage (proof_scraper.go:53): the story's bundled image
URLs, tried in order, first successful download wins. -/
def storyImagesStep (env : ProofEnv) (story : Story) (outputDir : String) (i : Nat) :
    Option String :=
  (story.imageURLs.find? (fun u => downloadFile env u)).map
    (fun _ => proofPath outputDir i)

/-- searchGoogleImages (proof_scraper.go:128): SerpAPI query is the story title
plus the extracted narration query; each result URL is tried in order until one
downloads. -/
def searchGoogleImages (env : ProofEnv) (narration storyTitle outputDir : String)
    (i : Nat) : Option String :=
  let query := storyTitle ++ " " ++ extractSearchQuery narration
  match env.serp query with
  | none => none
  | some results =>
    if results.isEmpty then none
    else (results.find? (fun u => downloadFile env u)).map (fun _ => googlePath outputDir i)

/-- FetchProofImage (proof_scraper.go:35): the four-step fallback chain, each
step tried only if the previous one failed, the SerpAPI step only when an API
key is configured; none = "no proof image found". -/
def FetchProofImage (env : ProofEnv) (scene : ScriptScene) (story : Story)
    (outputDir : String) : Option String :=
  match proofStep1 env scene outputDir with
  | some f => some f
  | none =>
    match searchWikipedia env scene.narration outputDir scene.index with
    | some f => some f
    | none =>
      match storyImagesStep env story outputDir scene.index with
      | some f => some f
      | none =>
        if env.serpAPIKey ≠ "" then
          searchGoogleImages env scene.narration story.title outputDir scene.index
        else none

/-! ## GeneratedImageSource (pollinations_fetch / setup.sh part) -/

/-- Output path of PollinationsFetcher.Fetch. -/
def dramaticPath (outputDir : String) (i : Nat) : String :=
  joinPath outputDir ("dramatic_" ++ pad3 i ++ ".jpg")

/-- PollinationsFetcher.Fetch: errors immediately on an empty image prompt;
otherwise downloads with up to 3 retries.  The oracle bit downloadOk records
whether any of the 3 attempts produced a valid image (HTTP 200, body ≥ 100
bytes); none models "pollinations fetch failed after 3 attempts". -/
def PollinationsFetcher.Fetch (downloadOk : Bool) (scene : ScriptScene)
    (outputDir : String) : Option String :=
  if scene.imagePrompt = "" then none
  else if downloadOk then some (dramaticPath outputDir scene.index) else none

/-! ## AssetResolver + SceneTransform (visual_assembler / Assembler) -/

/-- Output path of Assembler.createFallbackFrame. -/
def fallbackPath (outputDir : String) (i : Nat) : String :=
  joinPath outputDir ("fallback_" ++ pad3 i ++ ".jpg")

/-- Output path of Assembler.prepareVideoClip. -/
def clipPath (outputDir : String) (i : Nat) : String :=
  joinPath outputDir ("clip_" ++ pad3 i ++ ".mp4")

/-- Output path of Assembler.prepareImageWithKenBurns. -/
def kenburnsPath (outputDir : String) (i : Nat) : String :=
  joinPath outputDir ("kenburns_" ++ pad3 i ++ ".mp4")

/-- Output path of Assembler.addSourceCredit. -/
def proofCreditedPath (outputDir : String) (i : Nat) : String :=
  joinPath outputDir ("proof_credited_" ++ pad3 i ++ ".jpg")

/-- Assembler.createFallbackFrame (visual_assembler): runs the ffmpeg
solid-black-frame subprocess, whose success is the oracle bit ffmpegOk, with
its Run() result explicitly discarded, and returns the output path
unconditionally. -/
def createFallbackFrame (ffmpegOk : Bool) (outputDir : String) (sceneIndex : Nat) :
    String :=
  match ffmpegOk with
  | true => fallbackPath outputDir sceneIndex
  | false => fallbackPath outputDir sceneIndex

/-- Go's int() conversion of a float64, modelled on ℚ: truncation toward zero
(numerator T-divided by denominator). -/
def goInt (q : ℚ) : ℤ :=
  q.num.tdiv q.den

/-- The scene's target duration as used by both SceneTransform paths: the
measured narration duration, silently replaced by 5.0 when it is ≤ 0. -/
def targetDuration (audioDurationSec : ℚ) : ℚ :=
  if audioDurationSec ≤ 0 then 5 else audioDurationSec

/-- The trim-or-loop decision of prepareVideoClip. -/
inductive ClipPlan where
  | trim (t : ℚ)
  | loop (n : ℤ) (t : ℚ)

/-- The ffmpeg invocation plan of Assembler.prepareVideoClip: target duration
is the (defaulted) narration duration; the measured clip duration falls back to
the target itself when ffprobe failed (measured = none); a clip at least as
long as the target is trimmed with -t target, a shorter one is looped
-stream_loop int(target/source)+2 times and trimmed with -t target. -/
def prepareVideoClipPlan (audioDurationSec : ℚ) (measured : Option ℚ) : ClipPlan :=
  let duration := targetDuration audioDurationSec
  let clipDur := match measured with
    | none => duration
    | some d => d
  if duration ≤ clipDur then ClipPlan.trim duration
  else ClipPlan.loop (goInt (duration / clipDur) + 2) duration

/-- prepareVideoClip as the resolver sees it: the subprocess either succeeds,
yielding the output path, or fails (a fatal transform error). -/
def prepareVideoClip (ffmpegOk : Bool) (outputDir : String) (scene : ScriptScene) :
    Option String :=
  if ffmpegOk then some (clipPath outputDir scene.index) else none

/-- totalFrames of prepareImageWithKenBurns: int(duration * float64(fps)). -/
def kenBurnsTotalFrames (duration : ℚ) (fps : Nat) : ℤ :=
  goInt (duration * (fps : ℚ))

/-- zoomStep of prepareImageWithKenBurns: (zoom - 1.0) / float64(totalFrames). -/
def kenBurnsZoomStep (zoom : ℚ) (totalFrames : Nat) : ℚ :=
  (zoom - 1) / (totalFrames : ℚ)

/-- Semantics of the zoompan z-expression min(zoom+step, cap) emitted by
prepareImageWithKenBurns: zoompan evaluates the expression once per output
frame with the variable zoom bound to the previous frame's value (initially
1.0), so output frame n carries this value. -/
def zoompanZoom (step cap : ℚ) : Nat → ℚ
  | 0 => min (1 + step) cap
  | n + 1 => min (zoompanZoom step cap n + step) cap

/-- prepareImageWithKenBurns as the resolver sees it: subprocess success yields
the output path, failure is a fatal transform error. -/
def prepareImageWithKenBurns (ffmpegOk : Bool) (outputDir : String)
    (scene : ScriptScene) (imgPath : String) : Option String :=
  if ffmpegOk then some (kenburnsPath outputDir scene.index) else none

/-- addSourceCredit as the resolver sees it (drawtext burn-in subprocess). -/
def addSourceCredit (ffmpegOk : Bool) (outputDir : String) (scene : ScriptScene)
    (story : Story) (imgPath : String) : Option String :=
  if ffmpegOk then some (proofCreditedPath outputDir scene.index) else none

/-- The default prompt synthesized when a cinematic scene downgrades without an
image prompt (Assembler.Run, cinematic case). -/
def defaultCinematicPrompt (mood : String) : String :=
  "dark crime scene " ++ mood ++ " atmosphere cinematic"

/-- The default prompt synthesized when a proof scene downgrades without an
image prompt (Assembler.Run, proof case). -/
def defaultProofPrompt : String :=
  "evidence document crime scene investigation cinematic"

/-- The in-place rewrite a cinematic scene undergoes when ClipLibrary selection
fails: type becomes dramatic, and a default prompt is synthesized if none exists. -/
def cinematicDowngrade (scene : ScriptScene) : ScriptScene :=
  { scene with
    sceneType := "dramatic"
    imagePrompt :=
      if scene.imagePrompt = "" then defaultCinematicPrompt scene.mood
      else scene.imagePrompt }

/-- The in-place rewrite a proof scene undergoes when the evidence chain fails. -/
def proofDowngrade (scene : ScriptScene) : ScriptScene :=
  { scene with
    sceneType := "dramatic"
    imagePrompt :=
      if scene.imagePrompt = "" then defaultProofPrompt
      else scene.imagePrompt }

/-- Oracle for the Assembler's external effects: the ProofScraper's world, the
per-scene Pollinations download outcome, the per-scene random value handed to
Pick, and the success bits of the ffmpeg transform subprocesses. -/
structure VisualEnv where
  penv : ProofEnv
  pollinationsOk : Nat → Bool
  randPick : Nat → Nat
  fallbackFfmpegOk : Bool
  clipPrepOk : Bool
  kenBurnsOk : Bool
  creditOk : Bool

/-- The still handed to the Ken Burns transform in the dramatic branch of
Assembler.Run: the Pollinations image, or on failure the solid-color fallback
frame (createFallbackFrame, indexed by the loop index i). -/
def dramaticStill (env : VisualEnv) (outputDir : String) (i : Nat)
    (scene : ScriptScene) : String :=
  match PollinationsFetcher.Fetch (env.pollinationsOk scene.index) scene outputDir with
  | some im => im
  | none => createFallbackFrame env.fallbackFfmpegOk outputDir i

/-- The cinematic case of Assembler.Run's switch: pick a clip and trim/loop it;
on pick failure downgrade the scene in place to dramatic, fetch a generated
image (a hard failure of the whole stage when that fails too) and Ken Burns it. -/
def resolveCinematic (env : VisualEnv) (outputDir : String) (am : AssetManager)
    (i : Nat) (scene : ScriptScene) : Except String (ScriptScene × AssetManager) :=
  match am.Pick scene (env.randPick i) with
  | none =>
    let scene1 := cinematicDowngrade scene
    match PollinationsFetcher.Fetch (env.pollinationsOk scene1.index) scene1 outputDir with
    | none => Except.error ("scene " ++ toString i ++ " visual fallback failed")
    | some img =>
      match prepareImageWithKenBurns env.kenBurnsOk outputDir scene1 img with
      | none => Except.error "ffmpeg ken burns"
      | some prepared => Except.ok ({ scene1 with visualFile := prepared }, am)
  | some (_file, am1) =>
    match prepareVideoClip env.clipPrepOk outputDir scene with
    | none => Except.error ("scene " ++ toString i ++ " clip prep failed")
    | some prepared => Except.ok ({ scene with visualFile := prepared }, am1)

/-- The dramatic case of Assembler.Run's switch: generated image, or the
solid-color fallback frame when Pollinations fails, then Ken Burns. -/
def resolveDramatic (env : VisualEnv) (outputDir : String) (am : AssetManager)
    (i : Nat) (scene : ScriptScene) : Except String (ScriptScene × AssetManager) :=
  let img := dramaticStill env outputDir i scene
  match prepareImageWithKenBurns env.kenBurnsOk outputDir scene img with
  | none => Except.error "ffmpeg ken burns"
  | some prepared => Except.ok ({ scene with visualFile := prepared }, am)

/-- The proof case of Assembler.Run's switch: fetch an evidence image and burn
in the source credit; on chain exhaustion downgrade the scene in place to
dramatic and run the dramatic behavior (generated image or fallback frame). -/
def resolveProof (env : VisualEnv) (story : Story) (outputDir : String)
    (am : AssetManager) (i : Nat) (scene : ScriptScene) :
    Except String (ScriptScene × AssetManager) :=
  match FetchProofImage env.penv scene story outputDir with
  | none =>
    let scene1 := proofDowngrade scene
    let img2 := dramaticStill env outputDir i scene1
    match prepareImageWithKenBurns env.kenBurnsOk outputDir scene1 img2 with
    | none => Except.error "ffmpeg ken burns"
    | some prepared => Except.ok ({ scene1 with visualFile := prepared }, am)
  | some img =>
    let credited :=
      match addSourceCredit env.creditOk outputDir scene story img with
      | some c => c
      | none => img
    Except.ok ({ scene with visualFile := credited }, am)

/-- One iteration of Assembler.Run's per-scene switch (the AssetResolver state
machine): dispatch on the declared scene type, downgrade on source failure,
transform the resolved raw asset, and write the scene's visualFile.  Returns
the rewritten scene and the threaded AssetManager, or the stage's fatal error.
An unrecognized scene type matches no switch case and leaves the scene as it
is.  i is the loop index of Assembler.Run. -/
def resolveScene (env : VisualEnv) (story : Story) (outputDir : String)
    (am : AssetManager) (i : Nat) (scene : ScriptScene) :
    Except String (ScriptScene × AssetManager) :=
  if scene.sceneType = "cinematic" then resolveCinematic env outputDir am i scene
  else if scene.sceneType = "dramatic" then resolveDramatic env outputDir am i scene
  else if scene.sceneType = "proof" then resolveProof env story outputDir am i scene
  else Except.ok (scene, am)

/-! ## TimelineRenderer (renderer.go) -/

/-- The scene list collected by Renderer.applyProofOverlays (renderer part of
pipeline source, applyProofOverlays): exactly the scenes whose recorded type
still reads proof and whose visual file is non-empty get the slide-in overlay
treatment. -/
def proofScenes (scenes : List ScriptScene) : List ScriptScene :=
  scenes.filter (fun s => s.sceneType == "proof" && s.visualFile != "")

/-- The hold duration used by applyOneProofOverlay: the scene's declared proof
duration, or the configured default when it is ≤ 0. -/
def effectiveHold (cfg : VisCfg) (scene : ScriptScene) : ℚ :=
  if scene.proofDurationSec ≤ 0 then cfg.proofHoldSecDefault
  else scene.proofDurationSec

/-- endTime of applyOneProofOverlay: startTime + holdDuration + animDur*2. -/
def overlayEnd (cfg : VisCfg) (scene : ScriptScene) : ℚ :=
  scene.timestampStart + effectiveHold cfg scene + cfg.proofAnimationDurationSec * 2

/-- The slide-in sub-expression of the overlay x position: from the right edge
(1920) to the centered position (480) over animDur seconds, then parked at 480. -/
def slideInX (start animDur t : ℚ) : ℚ :=
  if t - start < animDur then 1920 + (480 - 1920) * ((t - start) / animDur)
  else 480

/-- The full animated x-position expression of applyOneProofOverlay: slide in
until start+animDur, hold at 480, slide back out to 1920 until
slideOutStart+animDur, then parked at 1920. -/
def overlayX (cfg : VisCfg) (scene : ScriptScene) (t : ℚ) : ℚ :=
  let start := scene.timestampStart
  let animDur := cfg.proofAnimationDurationSec
  let slideOutStart := start + animDur + effectiveHold cfg scene
  if t < start + animDur then slideInX start animDur t
  else if t < slideOutStart + animDur then
    480 + (1920 - 480) * ((t - slideOutStart) / animDur)
  else 1920

/-- The background brightness expression of applyOneProofOverlay: the
configured dim factor inside the window between(t, start, end), 1.0 outside. -/
def brightnessAt (cfg : VisCfg) (scene : ScriptScene) (t : ℚ) : ℚ :=
  if scene.timestampStart ≤ t ∧ t ≤ overlayEnd cfg scene then
    cfg.backgroundDimDuringProof
  else 1

/-- The overlay enable expression of applyOneProofOverlay:
enable=between(t, start, end). -/
def overlayEnabled (cfg : VisCfg) (scene : ScriptScene) (t : ℚ) : Prop :=
  scene.timestampStart ≤ t ∧ t ≤ overlayEnd cfg scene

/-! ## Concrete fixtures used by the witness theorems -/

/-- A baseline scene for concrete evaluations. -/
def sceneBase : ScriptScene :=
  { index := 0
    timestampStart := 0
    narration := ""
    sceneType := "dramatic"
    mood := "tense"
    imagePrompt := "p"
    assetTags := []
    proofImageURL := ""
    proofDurationSec := 0
    audioDurationSec := 0
    visualFile := "" }

/-- A baseline story for concrete evaluations. -/
def storyEx : Story :=
  { title := "t", source := "s", publishedAt := "2020-01-02", imageURLs := [] }

/-- A ProofEnv in which every external lookup fails and no API key is set. -/
def penvNone : ProofEnv :=
  { http := fun _ => none, wiki := fun _ => none, serp := fun _ => none,
    serpAPIKey := "" }

/-- A ProofEnv in which every download succeeds (HTTP 200, 5000 bytes). -/
def penvHit : ProofEnv :=
  { http := fun _ => some { status := 200, bodyLen := 5000 }
    wiki := fun _ => none, serp := fun _ => none, serpAPIKey := "" }

/-- A VisualEnv in which Pollinations is down and the fallback-frame subprocess
fails, but the transform subprocesses succeed. -/
def venvDown : VisualEnv :=
  { penv := penvNone
    pollinationsOk := fun _ => false
    randPick := fun _ => 0
    fallbackFfmpegOk := false
    clipPrepOk := true
    kenBurnsOk := true
    creditOk := true }

/-- An AssetManager with an empty tag index. -/
def amEmpty : AssetManager := { tags := [], usedInRun := [], usageLog := [] }

/-- An AssetManager with two tagged clips and a fresh run. -/
def amTwo : AssetManager :=
  { tags := [("a.mp4", ["dark", "night"]), ("b.mp4", ["urban"])]
    usedInRun := []
    usageLog := [] }

/-- A cinematic scene requiring the dark tag. -/
def sceneCin : ScriptScene :=
  { sceneBase with sceneType := "cinematic", assetTags := ["dark"] }

/-- A proof scene with a declared evidence URL. -/
def sceneProofURL : ScriptScene :=
  { sceneBase with sceneType := "proof", proofImageURL := "http://example.com/x.jpg" }

/-- A proof scene with no usable evidence anywhere. -/
def sceneProofBare : ScriptScene :=
  { sceneBase with sceneType := "proof" }

/-- A renderer configuration with integral timing values. -/
def cfgEx : VisCfg :=
  { proofAnimationDurationSec := 1
    proofHoldSecDefault := 3
    backgroundDimDuringProof := 0
    kenBurnsZoomFactor := 2
    fps := 30 }

/-- A proof scene placed at t = 10 holding for 2 seconds. -/
def sceneOverlay : ScriptScene :=
  { sceneBase with sceneType := "proof", timestampStart := 10, proofDurationSec := 2 }

/-- The descending-by-score order maintained by sortScored. -/
def scoreGE (a b : String × ℤ) : Prop := b.2 ≤ a.2

/-- The -t (output length) argument carried by a clip plan: both the trim and
the loop branch of prepareVideoClip trim the output to this length. -/
def clipPlanTarget : ClipPlan → ℚ
  | ClipPlan.trim t => t
  | ClipPlan.loop _ t => t

/-- The frame count prepareImageWithKenBurns derives for a scene: the defaulted
narration duration times the frame rate, truncated by Go's int(). -/
def sceneKenBurnsFrames (audioDurationSec : ℚ) (fps : Nat) : ℤ :=
  kenBurnsTotalFrames (targetDuration audioDurationSec) fps

/-! ## Helper lemmas -/

/-- joinPath output always contains the separator, hence is never empty. -/
theorem joinPath_ne_empty (dir name : String) : joinPath dir name ≠ "" := by
  intro h
  have hl := congrArg String.length h
  rw [joinPath, String.length_append, String.length_append] at hl
  have h1 : ("/" : String).length = 1 := rfl
  have h2 : ("" : String).length = 0 := rfl
  omega

/-- Go's int() agrees with the floor on nonnegative rationals. -/
theorem goInt_eq_floor (q : ℚ) (h : 0 ≤ q) : goInt q = ⌊q⌋ := by
  rw [goInt, Rat.floor_def, Int.tdiv_eq_ediv (Rat.num_nonneg.2 h) (Int.natCast_nonneg _)]

/-- Membership in an insertDesc result. -/
theorem mem_insertDesc {x a : String × ℤ} :
    ∀ {l : List (String × ℤ)}, a ∈ insertDesc x l → a = x ∨ a ∈ l := by
  intro l
  induction l with
  | nil => simp [insertDesc]
  | cons y ys ih =>
    simp only [insertDesc]
    by_cases hc : y.2 < x.2
    · simp only [if_pos hc, List.mem_cons]
      tauto
    · simp only [if_neg hc, List.mem_cons]
      intro h
      rcases h with h | h
      · tauto
      · rcases ih h with h1 | h1 <;> tauto

/-- insertDesc is a permutation of consing. -/
theorem insertDesc_perm (x : String × ℤ) :
    ∀ (l : List (String × ℤ)), List.Perm (insertDesc x l) (x :: l) := by
  intro l
  induction l with
  | nil => simp [insertDesc]
  | cons y ys ih =>
    simp only [insertDesc]
    by_cases hc : y.2 < x.2
    · simp [if_pos hc]
    · rw [if_neg hc]
      exact (ih.cons y).trans (List.Perm.swap x y ys)


/-- sortScoredGo permutes its inputs. -/
theorem sortScoredGo_perm :
    ∀ (l acc : List (String × ℤ)), List.Perm (sortScoredGo l acc) (l ++ acc) := by
  intro l
  induction l with
  | nil => intro acc; simp [sortScoredGo]
  | cons x xs ih =>
    intro acc
    rw [sortScoredGo]
    refine (ih _).trans ?_
    exact (List.Perm.append_left xs (insertDesc_perm x acc)).trans List.perm_middle

/-- sortScored is a permutation of its input. -/
theorem sortScored_perm (l : List (String × ℤ)) : List.Perm (sortScored l) l := by
  rw [sortScored]
  have h := sortScoredGo_perm l []
  simp only [List.append_nil] at h
  exact h


/-- insertDesc preserves descending sortedness. -/
theorem insertDesc_sorted {x : String × ℤ} :
    ∀ {l : List (String × ℤ)}, List.Sorted scoreGE l →
      List.Sorted scoreGE (insertDesc x l) := by
  intro l
  induction l with
  | nil => intro _; simp [insertDesc, List.sorted_singleton]
  | cons y ys ih =>
    intro h
    rw [List.sorted_cons] at h
    obtain ⟨hy, hys⟩ := h
    rw [insertDesc]
    by_cases hc : y.2 < x.2
    · rw [if_pos hc, List.sorted_cons]
      constructor
      · intro b hb
        rcases List.mem_cons.1 hb with rfl | hb
        · exact le_of_lt hc
        · exact le_trans (hy b hb) (le_of_lt hc)
      · rw [List.sorted_cons]; exact ⟨hy, hys⟩
    · rw [if_neg hc, List.sorted_cons]
      constructor
      · intro b hb
        rcases mem_insertDesc hb with rfl | hb
        · exact not_lt.1 hc
        · exact hy b hb
      · exact ih hys

/-- sortScoredGo keeps the accumulator sorted. -/
theorem sortScoredGo_sorted :
    ∀ (l acc : List (String × ℤ)), List.Sorted scoreGE acc →
      List.Sorted scoreGE (sortScoredGo l acc) := by
  intro l
  induction l with
  | nil => intro acc h; simpa [sortScoredGo] using h
  | cons x xs ih => intro acc h; rw [sortScoredGo]; exact ih _ (insertDesc_sorted h)

/-- sortScored sorts descending by score. -/
theorem sortScored_sorted (l : List (String × ℤ)) :
    List.Sorted scoreGE (sortScored l) :=
  sortScoredGo_sorted l [] (by simp)

/-- A getD hit inside the bounds is a member of the list. -/
theorem getD_mem {α : Type} (l : List α) (n : Nat) (d : α) (h : n < l.length) :
    l.getD n d ∈ l := by
  induction l generalizing n with
  | nil => simp at h
  | cons x xs ih =>
    cases n with
    | zero => simp [List.getD]
    | succ m =>
      have hm : m < xs.length := by simpa using h
      simp only [List.getD_cons_succ]
      exact List.mem_cons_of_mem _ (ih m hm)

/-- The tag-counting fold of matchScore equals 10 times the matched-tag count. -/
theorem foldl_tag_score (p : String → Bool) :
    ∀ (l : List String) (acc : ℤ),
      l.foldl (fun a w => if p w then a + 10 else a) acc
        = acc + 10 * ((l.filter p).length : ℤ) := by
  intro l
  induction l with
  | nil => intro acc; simp
  | cons w ws ih =>
    intro acc
    rw [List.foldl_cons]
    by_cases hp : p w
    · rw [if_pos hp, ih, List.filter_cons, if_pos hp, List.length_cons]
      push_cast
      ring
    · rw [if_neg hp, ih, List.filter_cons, if_neg hp]

/-- matchScore in closed form: 10 per matched required tag plus the mood bonus. -/
theorem matchScore_eq (required clipTags : List String) (mood : String) :
    matchScore required clipTags mood
      = 10 * ((required.filter
            (fun r => (clipTags.map strToLower).contains (strToLower r))).length : ℤ)
        + (if (clipTags.map strToLower).contains (strToLower mood) then 15 else 0) := by
  rw [matchScore, foldl_tag_score]
  by_cases hm : (clipTags.map strToLower).contains (strToLower mood)
  · rw [if_pos hm, if_pos hm]; ring
  · rw [if_neg hm, if_neg hm]; ring

/-- matchScore is never negative. -/
theorem matchScore_nonneg (required clipTags : List String) (mood : String) :
    0 ≤ matchScore required clipTags mood := by
  rw [matchScore_eq]
  have h1 : (0 : ℤ) ≤ 10 * ((required.filter
      (fun r => (clipTags.map strToLower).contains (strToLower r))).length : ℤ) := by
    positivity
  by_cases hm : (clipTags.map strToLower).contains (strToLower mood)
  · rw [if_pos hm]; linarith
  · rw [if_neg hm]; linarith

/-- Because scores are never negative, the score filter keeps every unused
clip: the candidate list is exactly the scored unused entries. -/
theorem pickCandidates_eq (am : AssetManager) (scene : ScriptScene) :
    pickCandidates am scene
      = (am.tags.filter (fun e => !(am.usedInRun.contains e.1))).map
          (fun e => (e.1, matchScore scene.assetTags e.2 scene.mood)) := by
  rw [pickCandidates]
  have hfil :
      ((am.tags.filter (fun e => !(am.usedInRun.contains e.1))).map
          (fun e => (e.1, matchScore scene.assetTags e.2 scene.mood))).filter
        (fun c => 0 ≤ c.2)
      = (am.tags.filter (fun e => !(am.usedInRun.contains e.1))).map
          (fun e => (e.1, matchScore scene.assetTags e.2 scene.mood)) := by
    apply List.filter_eq_self.2
    intro c hc
    rcases List.mem_map.1 hc with ⟨e, _, rfl⟩
    exact decide_eq_true (matchScore_nonneg _ _ _)
  rw [hfil]
  by_cases hemp :
      ((am.tags.filter (fun e => !(am.usedInRun.contains e.1))).map
        (fun e => (e.1, matchScore scene.assetTags e.2 scene.mood))).isEmpty
  · rw [if_pos hemp]
    rcases List.isEmpty_iff.1 hemp with hnil
    have h2 : am.tags.filter (fun e => !(am.usedInRun.contains e.1)) = [] :=
      List.map_eq_nil_iff.1 hnil
    rw [h2]
    simp
  · rw [if_neg hemp]

/-- Every candidate's filename is not yet marked used. -/
theorem pickCandidates_unused {am : AssetManager} {scene : ScriptScene}
    {c : String × ℤ} (hc : c ∈ pickCandidates am scene) :
    am.usedInRun.contains c.1 = false := by
  rw [pickCandidates_eq] at hc
  rcases List.mem_map.1 hc with ⟨e, he, rfl⟩
  have := List.of_mem_filter he
  simpa using this

/-- Specification of a successful Pick: the picked filename was not yet used,
and the returned manager marks exactly it as used and logs it. -/
theorem Pick_spec {am : AssetManager} {scene : ScriptScene} {r : Nat}
    {f : String} {am1 : AssetManager}
    (h : am.Pick scene r = some (f, am1)) :
    am.usedInRun.contains f = false
      ∧ am1.usedInRun = f :: am.usedInRun
      ∧ am1.usageLog = am.usageLog ++ [f] := by
  rw [AssetManager.Pick] at h
  by_cases h0 : am.tags.isEmpty
  · rw [if_pos h0] at h; exact absurd h (by simp)
  rw [if_neg h0] at h
  by_cases h1 : (pickCandidates am scene).isEmpty
  · simp only [h1] at h
    exact absurd h (by simp)
  simp only [h1] at h
  rw [if_neg (by simpa using h1)] at h
  set sorted := sortScored (pickCandidates am scene) with hsorted
  set topN := if sorted.length < 3 then sorted.length else 3 with htop
  have hlenpos : 0 < (pickCandidates am scene).length := by
    cases hl : pickCandidates am scene with
    | nil => rw [hl] at h1; simp at h1
    | cons a as => simp [hl]
  have hslen : sorted.length = (pickCandidates am scene).length :=
    (sortScored_perm _).length_eq
  have htpos : 0 < topN := by
    rw [htop]; split <;> omega
  have htle : topN ≤ sorted.length := by
    rw [htop]; split <;> omega
  have hidx : r % topN < sorted.length := by
    have := Nat.mod_lt r htpos
    omega
  have hmem : sorted.getD (r % topN) ("", 0) ∈ sorted := getD_mem _ _ _ hidx
  have hmemc : sorted.getD (r % topN) ("", 0) ∈ pickCandidates am scene :=
    (sortScored_perm _).mem_iff.1 hmem
  have hunused := pickCandidates_unused hmemc
  rcases Option.some.inj h with h2
  have hf : (sorted.getD (r % topN) ("", 0)).1 = f := congrArg Prod.fst h2
  have ham : am1 = { am with usedInRun := f :: am.usedInRun,
                             usageLog := am.usageLog ++ [f] } := by
    rw [← hf]
    exact (congrArg Prod.snd h2).symm
  refine ⟨?_, ?_, ?_⟩
  · rw [← hf]; exact hunused
  · rw [ham]
  · rw [ham]

/-- Every filename returned during a run was not in the used set the run
started from. -/
theorem runPicks_avoid :
    ∀ (reqs : List (ScriptScene × Nat)) (am : AssetManager) (f : String),
      f ∈ runPicks am reqs → am.usedInRun.contains f = false := by
  intro reqs
  induction reqs with
  | nil => intro am f hf; simp [runPicks] at hf
  | cons q rest ih =>
    intro am f hf
    obtain ⟨s, r⟩ := q
    rw [runPicks] at hf
    cases hp : am.Pick s r with
    | none =>
      rw [hp] at hf
      exact ih am f hf
    | some pr =>
      obtain ⟨g, am1⟩ := pr
      rw [hp] at hf
      rcases List.mem_cons.1 hf with rfl | hf
      · exact (Pick_spec hp).1
      · have h1 := ih am1 f hf
        rw [(Pick_spec hp).2.1] at h1
        simp only [List.contains_cons, Bool.or_eq_false_iff] at h1
        exact h1.2

/-- No clip filename is ever returned twice within one run. -/
theorem runPicks_nodup :
    ∀ (reqs : List (ScriptScene × Nat)) (am : AssetManager),
      (runPicks am reqs).Nodup := by
  intro reqs
  induction reqs with
  | nil => intro am; simp [runPicks]
  | cons q rest ih =>
    intro am
    obtain ⟨s, r⟩ := q
    rw [runPicks]
    cases hp : am.Pick s r with
    | none => exact ih am
    | some pr =>
      obtain ⟨g, am1⟩ := pr
      rw [List.nodup_cons]
      constructor
      · intro hg
        have h1 := runPicks_avoid rest am1 g hg
        rw [(Pick_spec hp).2.1] at h1
        simp at h1
      · exact ih am1

/-- With oracle value r below min 3 n, Pick returns exactly the r-th entry of
the descending-sorted candidate list: every one of the top min 3 n candidates
is a possible outcome of the uniform random draw. -/
theorem Pick_top (am : AssetManager) (scene : ScriptScene) (r : Nat)
    (h0 : ¬am.tags.isEmpty)
    (hr : r < min 3 (sortScored (pickCandidates am scene)).length) :
    (am.Pick scene r).map Prod.fst
      = some ((sortScored (pickCandidates am scene)).getD r ("", 0)).1 := by
  have h1 : ¬(pickCandidates am scene).isEmpty := by
    intro hemp
    rw [List.isEmpty_iff] at hemp
    rw [hemp] at hr
    simp [sortScored, sortScoredGo] at hr
  rw [AssetManager.Pick, if_neg h0]
  simp only [h1]
  rw [if_neg (by simp : ¬(false = true))]
  have htop : (if (sortScored (pickCandidates am scene)).length < 3
        then (sortScored (pickCandidates am scene)).length else 3)
      = min 3 (sortScored (pickCandidates am scene)).length := by
    rcases Nat.le_total 3 (sortScored (pickCandidates am scene)).length with h | h
    · rw [if_neg (by omega), Nat.min_eq_left h]
    · rcases Nat.lt_or_ge (sortScored (pickCandidates am scene)).length 3 with h2 | h2
      · rw [if_pos h2, Nat.min_eq_right (le_of_lt h2)]
      · rw [if_neg (by omega)]; omega
  rw [htop, Nat.mod_eq_of_lt hr]
  rfl

/-! ## Claim theorems -/

/-- Claim C2: within one run identifier no two successful ClipLibrary
selections return the same clip filename; a pick is excluded from every later
candidate set because the successful pick marks its filename used (the updated
manager's used set is exactly the old one plus the pick) and was itself drawn
from the not-yet-used clips. -/
theorem c2_pick_never_repeats :
    (∀ (am : AssetManager) (reqs : List (ScriptScene × Nat)),
        (runPicks am reqs).Nodup)
    ∧ (∀ (am : AssetManager) (scene : ScriptScene) (r : Nat) (f : String)
          (am1 : AssetManager),
        am.Pick scene r = some (f, am1) →
          am.usedInRun.contains f = false ∧ am1.usedInRun = f :: am.usedInRun) :=
  ⟨fun am reqs => runPicks_nodup reqs am,
   fun _ _ _ _ _ h => ⟨(Pick_spec h).1, (Pick_spec h).2.1⟩⟩

/-- Witness for C2 at a concrete two-clip manager: picking for a dark-tagged
tense scene with oracle 0 returns a.mp4, which was unused and is then marked. -/
theorem c2_witness :
    amTwo.usedInRun.contains "a.mp4" = false
      ∧ ({ tags := amTwo.tags, usedInRun := ["a.mp4"],
           usageLog := ["a.mp4"] } : AssetManager).usedInRun
          = "a.mp4" :: amTwo.usedInRun := by
  have hpick : amTwo.Pick sceneCin 0
      = some ("a.mp4",
          { tags := amTwo.tags, usedInRun := ["a.mp4"], usageLog := ["a.mp4"] }) := by
    rfl
  exact c2_pick_never_repeats.2 amTwo sceneCin 0 _ _ hpick

/-- Claim C3: the selection score is 10 per required tag present in the clip's
case-folded tag set plus 15 exactly when the set contains the mood; a score of
0 never excludes an unused clip from the candidate set; and the pick is drawn
from the descending-sorted candidates at the random index, so each of the top
min 3 n candidates is a possible outcome of the uniform draw. -/
theorem c3_scoring_and_selection :
    (∀ (required clipTags : List String) (mood : String),
        matchScore required clipTags mood
          = 10 * ((required.filter
                (fun t => (clipTags.map strToLower).contains (strToLower t))).length : ℤ)
            + (if (clipTags.map strToLower).contains (strToLower mood) then 15 else 0))
    ∧ (∀ (required clipTags : List String) (mood : String),
        0 ≤ matchScore required clipTags mood)
    ∧ (∀ (am : AssetManager) (scene : ScriptScene) (e : String × List String),
        e ∈ am.tags → am.usedInRun.contains e.1 = false →
          (e.1, matchScore scene.assetTags e.2 scene.mood) ∈ pickCandidates am scene)
    ∧ (∀ l : List (String × ℤ),
        List.Perm (sortScored l) l ∧ List.Sorted scoreGE (sortScored l))
    ∧ (∀ (am : AssetManager) (scene : ScriptScene) (r : Nat),
        ¬am.tags.isEmpty →
        r < min 3 (sortScored (pickCandidates am scene)).length →
          (am.Pick scene r).map Prod.fst
            = some ((sortScored (pickCandidates am scene)).getD r ("", 0)).1) := by
  refine ⟨matchScore_eq, matchScore_nonneg, ?_, ?_, ?_⟩
  · intro am scene e he hused
    rw [pickCandidates_eq]
    refine List.mem_map.2 ⟨e, List.mem_filter.2 ⟨he, ?_⟩, rfl⟩
    rw [hused]
    rfl
  · intro l
    exact ⟨sortScored_perm l, sortScored_sorted l⟩
  · intro am scene r h0 hr
    exact Pick_top am scene r h0 hr

/-- Witness for C3 at the two-clip manager: with oracle 1 the pick is the
second entry of the sorted candidate list. -/
theorem c3_witness :
    ¬amTwo.tags.isEmpty
      ∧ 1 < min 3 (sortScored (pickCandidates amTwo sceneCin)).length
      ∧ (amTwo.Pick sceneCin 1).map Prod.fst
          = some ((sortScored (pickCandidates amTwo sceneCin)).getD 1 ("", 0)).1 := by
  refine ⟨by decide, by decide, ?_⟩
  exact c3_scoring_and_selection.2.2.2.2 amTwo sceneCin 1 (by decide) (by decide)

/-- Claim C1 counterexample: a declared-cinematic scene downgraded to the
generated-image behavior whose Pollinations retries exhaust makes the resolver
raise a hard failure instead of substituting the solid-color fallback frame
(the empty clip pool fails the pick, the downgraded fetch fails, and
Assembler.Run returns the stage error). -/
theorem c1_counterexample :
    resolveScene venvDown storyEx "out" amEmpty 0 sceneCin
      = Except.error "scene 0 visual fallback failed" := rfl

/-- Claim C1 as amended: only scenes declared dramatic and proof scenes
downgraded after chain exhaustion substitute the solid-color fallback frame on
generated-image failure and finish with a non-empty visual file; a cinematic
scene downgraded to the generated behavior raises a hard failure when the
generated-image source exhausts its retries. -/
theorem c1_amended :
    ∀ (env : VisualEnv) (story : Story) (outDir : String) (am : AssetManager)
      (i : Nat) (scene : ScriptScene),
      (scene.sceneType = "dramatic" →
        (PollinationsFetcher.Fetch (env.pollinationsOk scene.index) scene outDir = none →
            dramaticStill env outDir i scene
              = createFallbackFrame env.fallbackFfmpegOk outDir i)
          ∧ (env.kenBurnsOk = true →
              resolveScene env story outDir am i scene
                  = Except.ok ({ scene with visualFile := kenburnsPath outDir scene.index }, am)
                ∧ kenburnsPath outDir scene.index ≠ ""))
      ∧ (scene.sceneType = "proof" →
          FetchProofImage env.penv scene story outDir = none →
          env.kenBurnsOk = true →
            resolveScene env story outDir am i scene
                = Except.ok ({ proofDowngrade scene with
                    visualFile := kenburnsPath outDir scene.index }, am)
              ∧ kenburnsPath outDir scene.index ≠ "")
      ∧ (scene.sceneType = "cinematic" →
          am.Pick scene (env.randPick i) = none →
          PollinationsFetcher.Fetch (env.pollinationsOk scene.index)
              (cinematicDowngrade scene) outDir = none →
            resolveScene env story outDir am i scene
              = Except.error ("scene " ++ toString i ++ " visual fallback failed")) := by
  intro env story outDir am i scene
  refine ⟨?_, ?_, ?_⟩
  · intro hty
    constructor
    · intro hfetch
      rw [dramaticStill, hfetch]
    · intro hk
      refine ⟨?_, joinPath_ne_empty _ _⟩
      rw [resolveScene, if_neg (show ¬scene.sceneType = "cinematic" by rw [hty]; decide),
        if_pos hty]
      simp [resolveDramatic, prepareImageWithKenBurns, hk]
  · intro hty hfetch hk
    refine ⟨?_, joinPath_ne_empty _ _⟩
    rw [resolveScene, if_neg (show ¬scene.sceneType = "cinematic" by rw [hty]; decide),
      if_neg (show ¬scene.sceneType = "dramatic" by rw [hty]; decide), if_pos hty]
    simp [resolveProof, hfetch, prepareImageWithKenBurns, hk, proofDowngrade]
  · intro hty hpick hfetch
    have hidx : (cinematicDowngrade scene).index = scene.index := rfl
    rw [resolveScene, if_pos hty]
    simp only [resolveCinematic, hpick, hidx, hfetch]

/-- Witness for the amended C1 at the concrete environment: the dramatic scene
resolves through the fallback frame to a non-empty Ken Burns clip. -/
theorem c1_witness :
    dramaticStill venvDown "out" 1 sceneBase
        = createFallbackFrame venvDown.fallbackFfmpegOk "out" 1
      ∧ resolveScene venvDown storyEx "out" amEmpty 1 sceneBase
          = Except.ok ({ sceneBase with visualFile := kenburnsPath "out" 0 }, amEmpty)
      ∧ kenburnsPath "out" 0 ≠ "" := by
  have h := (c1_amended venvDown storyEx "out" amEmpty 1 sceneBase).1 rfl
  have h1 := h.1 rfl
  have h2 := h.2 rfl
  exact ⟨h1, h2.1, h2.2⟩

/-- Claim C8: the overlay step collects exactly the scenes whose recorded type
still reads proof and whose visual file is non-empty, and a proof scene that
was downgraded during resolution (its evidence chain exhausted) comes out of
the resolver with its recorded type rewritten to dramatic, so it is not
collected by the overlay step. -/
theorem c8_overlay_selection :
    (∀ (s : ScriptScene) (scenes : List ScriptScene),
        s ∈ proofScenes scenes
          ↔ s ∈ scenes ∧ s.sceneType = "proof" ∧ s.visualFile ≠ "")
    ∧ (∀ (env : VisualEnv) (story : Story) (outDir : String) (am : AssetManager)
          (i : Nat) (scene s1 : ScriptScene) (am1 : AssetManager),
        scene.sceneType = "proof" →
        FetchProofImage env.penv scene story outDir = none →
        resolveScene env story outDir am i scene = Except.ok (s1, am1) →
          s1.sceneType = "dramatic") := by
  constructor
  · intro s scenes
    rw [proofScenes, List.mem_filter]
    constructor
    · intro h
      obtain ⟨h1, h2⟩ := h
      simp only [Bool.and_eq_true, beq_iff_eq, bne_iff_ne] at h2
      exact ⟨h1, h2.1, h2.2⟩
    · intro h
      obtain ⟨h1, h2, h3⟩ := h
      refine ⟨h1, ?_⟩
      simp only [Bool.and_eq_true, beq_iff_eq, bne_iff_ne]
      exact ⟨h2, h3⟩
  · intro env story outDir am i scene s1 am1 hty hfetch hres
    rw [resolveScene, if_neg (show ¬scene.sceneType = "cinematic" by rw [hty]; decide),
      if_neg (show ¬scene.sceneType = "dramatic" by rw [hty]; decide), if_pos hty] at hres
    cases hk : env.kenBurnsOk with
    | false =>
      simp [resolveProof, hfetch, prepareImageWithKenBurns, hk] at hres
    | true =>
      simp [resolveProof, hfetch, prepareImageWithKenBurns, hk, proofDowngrade] at hres
      rw [← hres.1]

/-- Witness for C8: a bare proof scene in the all-down environment resolves to
a scene whose recorded type reads dramatic, not proof. -/
theorem c8_witness :
    ({ proofDowngrade sceneProofBare with
        visualFile := kenburnsPath "out" 0 } : ScriptScene).sceneType = "dramatic" :=
  c8_overlay_selection.2 venvDown storyEx "out" amEmpty 0 sceneProofBare
    ({ proofDowngrade sceneProofBare with visualFile := kenburnsPath "out" 0 })
    amEmpty rfl rfl rfl

/-- Claim C4: FetchProofImage evaluates its four steps in order, each only if
the previous failed - the declared URL (only when present), the Wikipedia
lookup keyed by the extracted narration query, the story's bundled image URLs
in order, and the SerpAPI search only when an API key is configured - every
download rejects bodies under 1000 bytes, and the result is NotFound exactly
when every step failed. -/
theorem c4_proof_fallback_chain :
    ∀ (env : ProofEnv) (scene : ScriptScene) (story : Story) (outDir : String),
      (∀ f, proofStep1 env scene outDir = some f →
        FetchProofImage env scene story outDir = some f)
      ∧ (proofStep1 env scene outDir = none →
          ∀ f, searchWikipedia env scene.narration outDir scene.index = some f →
            FetchProofImage env scene story outDir = some f)
      ∧ (proofStep1 env scene outDir = none →
          searchWikipedia env scene.narration outDir scene.index = none →
          ∀ f, storyImagesStep env story outDir scene.index = some f →
            FetchProofImage env scene story outDir = some f)
      ∧ (proofStep1 env scene outDir = none →
          searchWikipedia env scene.narration outDir scene.index = none →
          storyImagesStep env story outDir scene.index = none →
            FetchProofImage env scene story outDir
              = if env.serpAPIKey ≠ "" then
                  searchGoogleImages env scene.narration story.title outDir scene.index
                else none)
      ∧ (scene.proofImageURL = "" → proofStep1 env scene outDir = none)
      ∧ (env.serpAPIKey = "" →
          (FetchProofImage env scene story outDir = none ↔
            proofStep1 env scene outDir = none
              ∧ searchWikipedia env scene.narration outDir scene.index = none
              ∧ storyImagesStep env story outDir scene.index = none))
      ∧ (FetchProofImage env scene story outDir = none ↔
          proofStep1 env scene outDir = none
            ∧ searchWikipedia env scene.narration outDir scene.index = none
            ∧ storyImagesStep env story outDir scene.index = none
            ∧ (env.serpAPIKey ≠ "" →
                searchGoogleImages env scene.narration story.title outDir scene.index = none))
      ∧ (∀ url, downloadFile env url = true →
          ∃ resp, env.http url = some resp ∧ resp.status = 200 ∧ 1000 ≤ resp.bodyLen)
      ∧ (storyImagesStep env story outDir scene.index = none ↔
          ∀ u ∈ story.imageURLs, downloadFile env u = false) := by
  intro env scene story outDir
  refine ⟨?_, ?_, ?_, ?_, ?_, ?_, ?_, ?_, ?_⟩
  · intro f h1
    rw [FetchProofImage, h1]
  · intro h1 f h2
    rw [FetchProofImage, h1, h2]
  · intro h1 h2 f h3
    rw [FetchProofImage, h1, h2, h3]
  · intro h1 h2 h3
    rw [FetchProofImage, h1, h2, h3]
  · intro hurl
    rw [proofStep1, if_neg (by simp [hurl])]
  · intro hkey
    cases h1 : proofStep1 env scene outDir with
    | some f => simp [FetchProofImage, h1]
    | none =>
      cases h2 : searchWikipedia env scene.narration outDir scene.index with
      | some f => simp [FetchProofImage, h1, h2]
      | none =>
        cases h3 : storyImagesStep env story outDir scene.index with
        | some f => simp [FetchProofImage, h1, h2, h3]
        | none => simp [FetchProofImage, h1, h2, h3, hkey]
  · cases h1 : proofStep1 env scene outDir with
    | some f => simp [FetchProofImage, h1]
    | none =>
      cases h2 : searchWikipedia env scene.narration outDir scene.index with
      | some f => simp [FetchProofImage, h1, h2]
      | none =>
        cases h3 : storyImagesStep env story outDir scene.index with
        | some f => simp [FetchProofImage, h1, h2, h3]
        | none =>
          by_cases hkey : env.serpAPIKey = ""
          · simp [FetchProofImage, h1, h2, h3, hkey]
          · simp [FetchProofImage, h1, h2, h3, hkey]
  · intro url hdl
    rw [downloadFile] at hdl
    cases hr : env.http url with
    | none => rw [hr] at hdl; exact absurd hdl (by simp)
    | some resp =>
      rw [hr] at hdl
      have := of_decide_eq_true hdl
      exact ⟨resp, rfl, this.1, this.2⟩
  · rw [storyImagesStep]
    constructor
    · intro h u hu
      have hfind : story.imageURLs.find? (fun v => downloadFile env v) = none := by
        cases hf : story.imageURLs.find? (fun v => downloadFile env v) with
        | none => rfl
        | some v => rw [hf] at h; exact absurd h (by simp)
      have := List.find?_eq_none.1 hfind u hu
      simpa using this
    · intro h
      have hfind : story.imageURLs.find? (fun v => downloadFile env v) = none :=
        List.find?_eq_none.2 (fun u hu => by simp [h u hu])
      rw [hfind]
      rfl

/-- Witness for C4: with a present declared URL and a fat 200 response, the
chain returns at step 1 with the step-1 output path. -/
theorem c4_witness :
    FetchProofImage penvHit sceneProofURL storyEx "out" = some (proofPath "out" 0) :=
  (c4_proof_fallback_chain penvHit sceneProofURL storyEx "out").1 (proofPath "out" 0) rfl

/-- Claim C5: the overlay window ends at start + hold + 2 x animDur; the enable
and dim expressions cover exactly the closed window; and outside the window the
animated x position sits at or beyond the frame's right edge x = 1920 (exactly
1920 at the window start and from the window end on), so no overlay animation
is visible outside the window. -/
theorem c5_overlay_window (cfg : VisCfg) (scene : ScriptScene)
    (hA : 0 < cfg.proofAnimationDurationSec)
    (hH : 0 ≤ effectiveHold cfg scene) :
    overlayEnd cfg scene
        = scene.timestampStart + effectiveHold cfg scene
            + 2 * cfg.proofAnimationDurationSec
      ∧ (∀ t, overlayEnabled cfg scene t ↔
          scene.timestampStart ≤ t ∧ t ≤ overlayEnd cfg scene)
      ∧ (∀ t, overlayEnabled cfg scene t →
          brightnessAt cfg scene t = cfg.backgroundDimDuringProof)
      ∧ (∀ t, ¬overlayEnabled cfg scene t → brightnessAt cfg scene t = 1)
      ∧ (∀ t, t ≤ scene.timestampStart → 1920 ≤ overlayX cfg scene t)
      ∧ overlayX cfg scene scene.timestampStart = 1920
      ∧ (∀ t, overlayEnd cfg scene ≤ t → overlayX cfg scene t = 1920) := by
  refine ⟨by rw [overlayEnd]; ring, fun t => Iff.rfl, ?_, ?_, ?_, ?_, ?_⟩
  · intro t ht
    rw [brightnessAt]
    exact if_pos ht
  · intro t ht
    rw [brightnessAt]
    exact if_neg ht
  · intro t ht
    rw [overlayX]
    rw [if_pos (by linarith)]
    rw [slideInX, if_pos (by linarith)]
    have hq : (t - scene.timestampStart) / cfg.proofAnimationDurationSec ≤ 0 :=
      div_nonpos_iff.2 (Or.inr ⟨by linarith, le_of_lt hA⟩)
    nlinarith [hq]
  · rw [overlayX]
    rw [if_pos (by linarith)]
    rw [slideInX, if_pos (by simpa using hA)]
    rw [sub_self, zero_div, mul_zero, add_zero]
  · intro t ht
    rw [overlayEnd] at ht
    rw [overlayX]
    rw [if_neg (by linarith)]
    rw [if_neg (by linarith)]

/-- Witness for C5 at the concrete configuration (animDur 1, hold 2, start 10):
the window end is 14. -/
theorem c5_witness :
    (0 : ℚ) < cfgEx.proofAnimationDurationSec
      ∧ (0 : ℚ) ≤ effectiveHold cfgEx sceneOverlay
      ∧ overlayEnd cfgEx sceneOverlay
          = sceneOverlay.timestampStart + effectiveHold cfgEx sceneOverlay
              + 2 * cfgEx.proofAnimationDurationSec := by
  have hA : (0 : ℚ) < cfgEx.proofAnimationDurationSec := by norm_num [cfgEx]
  have hH : (0 : ℚ) ≤ effectiveHold cfgEx sceneOverlay := by
    norm_num [effectiveHold, cfgEx, sceneOverlay, sceneBase]
  exact ⟨hA, hH, (c5_overlay_window cfgEx sceneOverlay hA hH).1⟩

/-- Claim C6 counterexample: for a 7-second narration over a 2-second source
clip the code computes int(7/2)+2 = 5 loops, not ceil(7/2)+2 = 6 as claimed. -/
theorem c6_counterexample :
    prepareVideoClipPlan 7 (some 2) = ClipPlan.loop 5 7
      ∧ (5 : ℤ) ≠ ⌈(7 : ℚ) / 2⌉ + 2 := by
  constructor
  · rw [prepareVideoClipPlan]
    have ht : targetDuration 7 = 7 := by norm_num [targetDuration]
    rw [ht]
    rw [if_neg (by norm_num)]
    have hg : goInt ((7 : ℚ) / 2) = 3 := by
      rw [goInt_eq_floor _ (by norm_num)]
      norm_num
    rw [hg]
    norm_num
  · have hc : ⌈(7 : ℚ) / 2⌉ = 4 := by
      rw [Int.ceil_eq_iff]
      norm_num
    rw [hc]
    norm_num

/-- Claim C6 as amended: a source clip at least as long as the target narration
duration is trimmed to exactly the target length; a shorter one is looped
int(target/source) + 2 times - the truncated quotient plus the safety margin
of 2, which is floor, not ceiling - and the looped copies still cover the
target with at least one source length to spare. -/
theorem c6_loop_count_amended :
    ∀ (audioDur clipDur : ℚ), 0 < clipDur →
      (targetDuration audioDur ≤ clipDur →
        prepareVideoClipPlan audioDur (some clipDur)
          = ClipPlan.trim (targetDuration audioDur))
      ∧ (clipDur < targetDuration audioDur →
          prepareVideoClipPlan audioDur (some clipDur)
              = ClipPlan.loop (⌊targetDuration audioDur / clipDur⌋ + 2)
                  (targetDuration audioDur)
            ∧ targetDuration audioDur
                < ((⌊targetDuration audioDur / clipDur⌋ + 2 : ℤ) : ℚ) * clipDur) := by
  intro audioDur clipDur hc
  constructor
  · intro hle
    rw [prepareVideoClipPlan, if_pos hle]
  · intro hlt
    have hq : (0 : ℚ) ≤ targetDuration audioDur / clipDur := by
      apply div_nonneg _ (le_of_lt hc)
      rw [targetDuration]
      by_cases h : audioDur ≤ 0
      · rw [if_pos h]; norm_num
      · rw [if_neg h]; linarith [not_le.1 h]
    refine ⟨?_, ?_⟩
    · rw [prepareVideoClipPlan, if_neg (by linarith)]
      rw [goInt_eq_floor _ hq]
    · set x := targetDuration audioDur / clipDur with hx
      have h1 : x - 1 < (⌊x⌋ : ℚ) := Int.sub_one_lt_floor _
      have h2 : ((⌊x⌋ + 2 : ℤ) : ℚ) = (⌊x⌋ : ℚ) + 2 := by push_cast; ring
      rw [h2]
      have h3 : targetDuration audioDur = x * clipDur := by
        rw [hx]; field_simp
      rw [h3]
      apply mul_lt_mul_of_pos_right _ hc
      linarith

/-- Witness for the amended C6 at target 7, source 2: the plan loops
floor(7/2) + 2 = 5 times, covering 10 > 7 seconds before the trim. -/
theorem c6_witness :
    prepareVideoClipPlan 7 (some 2)
        = ClipPlan.loop (⌊targetDuration 7 / 2⌋ + 2) (targetDuration 7)
      ∧ targetDuration 7 < ((⌊targetDuration 7 / 2⌋ + 2 : ℤ) : ℚ) * 2 := by
  have h := (c6_loop_count_amended 7 2 (by norm_num)).2
  exact h (by norm_num [targetDuration])

/-- Claim C7: with the per-frame increment (Z-1)/totalFrames emitted by
prepareImageWithKenBurns, the zoompan recurrence starting from zoom 1.0 reaches
exactly Z on the last of the totalFrames output frames, for every duration and
frame rate whose derived frame count is at least 1. -/
theorem c7_zoom_exact :
    ∀ (dur : ℚ) (fps : Nat) (zoom : ℚ),
      1 ≤ zoom →
      1 ≤ kenBurnsTotalFrames dur fps →
        zoompanZoom (kenBurnsZoomStep zoom (kenBurnsTotalFrames dur fps).toNat) zoom
            ((kenBurnsTotalFrames dur fps).toNat - 1)
          = zoom := by
  intro dur fps zoom hz htf
  set tf := (kenBurnsTotalFrames dur fps).toNat with htfdef
  have htf1 : 1 ≤ tf := by
    rw [htfdef]
    omega
  have htfQ : (0 : ℚ) < (tf : ℚ) := by
    have : 0 < tf := htf1
    exact_mod_cast this
  have hstep : 0 ≤ kenBurnsZoomStep zoom tf := by
    rw [kenBurnsZoomStep]
    apply div_nonneg (by linarith) (le_of_lt htfQ)
  have hclosed : ∀ n : Nat,
      zoompanZoom (kenBurnsZoomStep zoom tf) zoom n
        = min (1 + ((n : ℚ) + 1) * kenBurnsZoomStep zoom tf) zoom := by
    intro n
    induction n with
    | zero => rw [zoompanZoom]; norm_num
    | succ m ih =>
      rw [zoompanZoom, ih, ← min_add_add_right, min_assoc,
        min_eq_right (le_add_of_nonneg_right hstep)]
      congr 1
      push_cast
      ring
  rw [hclosed (tf - 1), kenBurnsZoomStep]
  have hcast : ((tf - 1 : ℕ) : ℚ) + 1 = (tf : ℚ) := by
    rw [Nat.cast_sub htf1]
    push_cast
    ring
  rw [hcast, mul_comm ((tf : ℚ)) _, div_mul_cancel₀ _ (ne_of_gt htfQ)]
  have hone : (1 : ℚ) + (zoom - 1) = zoom := by ring
  rw [hone, min_self]

/-- Witness for C7 at duration 1, 2 fps, zoom 2: the derived frame count is 2
and the last frame's zoom is exactly 2. -/
theorem c7_witness :
    1 ≤ kenBurnsTotalFrames 1 2
      ∧ zoompanZoom (kenBurnsZoomStep 2 (kenBurnsTotalFrames 1 2).toNat) 2
          ((kenBurnsTotalFrames 1 2).toNat - 1) = 2 := by
  have h2 : kenBurnsTotalFrames 1 2 = 2 := by
    rw [kenBurnsTotalFrames]
    norm_num [goInt]
  have h1 : 1 ≤ kenBurnsTotalFrames 1 2 := by rw [h2]; norm_num
  exact ⟨h1, c7_zoom_exact 1 2 2 (by norm_num) h1⟩

/-- Claim C9: a non-positive measured narration duration does not fail the
transforms and yields no zero-length clip; both the clip trim/loop path and the
still zoom path silently substitute a 5-second target, which differs from the
recorded narration duration. -/
theorem c9_default_duration :
    ∀ d : ℚ, d ≤ 0 →
      targetDuration d = 5
        ∧ 0 < targetDuration d
        ∧ targetDuration d ≠ d
        ∧ (∀ m : Option ℚ, clipPlanTarget (prepareVideoClipPlan d m) = 5)
        ∧ (∀ fps : Nat, sceneKenBurnsFrames d fps = goInt (5 * (fps : ℚ))) := by
  intro d hd
  have ht : targetDuration d = 5 := by rw [targetDuration, if_pos hd]
  refine ⟨ht, by rw [ht]; norm_num,
    by rw [ht]; intro h; rw [← h] at hd; norm_num at hd, ?_, ?_⟩
  · intro m
    cases m with
    | none => simp [prepareVideoClipPlan, clipPlanTarget, ht]
    | some c =>
      simp only [prepareVideoClipPlan]
      split
      · simp [clipPlanTarget, ht]
      · simp [clipPlanTarget, ht]
  · intro fps
    rw [sceneKenBurnsFrames, kenBurnsTotalFrames, ht]

/-- Witness for C9 at duration 0: the substituted target is 5 and positive. -/
theorem c9_witness :
    targetDuration 0 = 5
      ∧ 0 < targetDuration 0
      ∧ targetDuration 0 ≠ 0
      ∧ clipPlanTarget (prepareVideoClipPlan 0 (some 2)) = 5 := by
  have h := c9_default_duration 0 (by norm_num)
  exact ⟨h.1, h.2.1, h.2.2.1, h.2.2.2.1 (some 2)⟩

/-- Claim C10: createFallbackFrame discards the frame-generation subprocess
result and returns the (always non-empty) output path whether or not the
subprocess succeeded, so a non-empty visual-file field from this path does not
imply the file was created. -/
theorem c10_fallback_ignores_result :
    ∀ (ffmpegOk : Bool) (outputDir : String) (i : Nat),
      createFallbackFrame ffmpegOk outputDir i = fallbackPath outputDir i
        ∧ createFallbackFrame false outputDir i = createFallbackFrame true outputDir i
        ∧ fallbackPath outputDir i ≠ "" := by
  intro ffmpegOk outputDir i
  refine ⟨?_, rfl, joinPath_ne_empty _ _⟩
  cases ffmpegOk with
  | false => rfl
  | true => rfl

/-- Witness for C10 with a failed subprocess at scene 7: the returned path is
the same as on success and non-empty. -/
theorem c10_witness :
    createFallbackFrame false "out" 7 = fallbackPath "out" 7
      ∧ createFallbackFrame false "out" 7 = createFallbackFrame true "out" 7
      ∧ fallbackPath "out" 7 ≠ "" :=
  c10_fallback_ignores_result false "out" 7
